import Mathlib

/-!
# Verification of the Orchids website-cloner repository

Shallow embedding of the repository's code and of the spec's backend
components, with theorems settling the frozen claims.

The repository's visible source is the frontend page
`src/frontend/src/app/page.tsx` (a Next.js client component).  The backend
(URL Validator, Render Client, Content Extractor, Prompt Builder, Provider
Abstraction, Clone Orchestrator) is described by the spec but its code is
not present under `src/`; those components are modelled from the spec and
marked as such in their doc comments.
-/

namespace Orchids

/-! ## JavaScript value helpers

The frontend relies on JS truthiness (`clonedHtml && ...`, `error && ...`,
`errorData.detail || fallback`).  A JS string-or-absent value is modelled as
`Option String`; `none` stands for `null`/`undefined`, and truthiness of a
string is non-emptiness. -/

/-- JS truthiness of a string-valued variable (`null`/`undefined`/`""` are falsy). -/
def jsTruthy : Option String → Bool
  | none => false
  | some s => s ≠ ""

/-- JS `a || b` for a possibly-absent string `a` (used for `errorData.detail || msg`):
returns `a` when truthy, else the fallback. -/
def jsOrElse (a : Option String) (b : String) : String :=
  match a with
  | none => b
  | some s => if s = "" then b else s

/-- JS `a || b` where `a` is a (present) string (used for `err.message || msg`). -/
def jsStrOr (a b : String) : String :=
  if a = "" then b else a

/-! ## Frontend component state

From `page.tsx` lines 6–10: the `useState` hooks of the `App` component. -/

/-- The React state of the `App` component (`page.tsx:6-10`). -/
structure AppState where
  url : String
  clonedHtml : Option String
  loading : Bool
  error : Option String
  backendStatus : String
deriving Repr, DecidableEq

/-- The initial component state (`page.tsx:6-10`). -/
def initialState : AppState :=
  { url := "", clonedHtml := none, loading := false, error := none
  , backendStatus := "checking..." }

/-! ## Health check (`page.tsx:13-28`)

`checkBackendHealth` fetches `GET /health`; on `response.ok` it stores
`data.status`, on a non-ok response it stores `"unhealthy"`, and when the
fetch itself throws it stores `"unreachable"`. -/

/-- Outcome of the `fetch('http://localhost:8000/health')` call: either the
fetch rejects (network error), or a response arrives with its `ok` flag and
the parsed body's `status` field (`none` when the field is absent). -/
inductive HealthOutcome where
  | fetchError
  | response (ok : Bool) (status : Option String)
deriving Repr, DecidableEq

/-- The `backendStatus` value stored by `checkBackendHealth` (`page.tsx:14-26`)
for a given outcome of the health fetch.  `none` models storing JS
`undefined` (when an ok response lacks a `status` field). -/
def checkBackendHealth : HealthOutcome → Option String
  | .fetchError => some "unreachable"
  | .response true s => s
  | .response false _ => some "unhealthy"

/-! ## Clone submission (`page.tsx:30-60`)

`handleSubmit` sets `loading`, clears `error` and `clonedHtml`, POSTs
`JSON.stringify({ url })` to `/clone`, then either stores
`data.cloned_html` (ok response) or stores an error message; `finally`
clears `loading`. -/

/-- Minimal JSON value model, enough for the request body `{ "url": url }`. -/
inductive Json where
  | str (s : String)
  | obj (fields : List (String × Json))
deriving Repr

/-- An HTTP request as issued by the frontend; the body is kept at the JSON
level (`JSON.stringify` of `bodyJson` is what goes on the wire). -/
structure HttpRequest where
  method : String
  endpoint : String
  contentType : String
  bodyJson : Json
deriving Repr

/-- The clone request built by `handleSubmit` (`page.tsx:38-44`):
`POST http://localhost:8000/clone` with JSON body `{ "url": url }`. -/
def submitRequest (st : AppState) : HttpRequest :=
  { method := "POST"
  , endpoint := "http://localhost:8000/clone"
  , contentType := "application/json"
  , bodyJson := .obj [("url", .str st.url)] }

/-- Parsed body of a `/clone` response; both fields may be absent. -/
structure CloneResponseBody where
  detail : Option String
  cloned_html : Option String
deriving Repr, DecidableEq

/-- Outcome of the `fetch` in `handleSubmit`: the fetch rejects with an error
message, or a response arrives whose body either parses
(`Except.ok`) or makes `response.json()` throw (`Except.error` with the
thrown error's message). -/
inductive FetchOutcome where
  | netError (msg : String)
  | resp (ok : Bool) (body : Except String CloneResponseBody)
deriving Repr

/-- Generic catch-all message of the `catch` block (`page.tsx:56`). -/
def genericCloneError : String := "An unexpected error occurred during cloning."

/-- Fallback used when the failure body has no usable `detail` (`page.tsx:48`). -/
def failedCloneError : String := "Failed to clone website"

/-- The state after `setLoading(true); setError(null); setClonedHtml(null)`
(`page.tsx:32-34`), i.e. the state in which the request is issued. -/
def submitPending (st : AppState) : AppState :=
  { st with loading := true, error := none, clonedHtml := none }

/-- The component state after `handleSubmit` runs to completion
(`page.tsx:30-60`), given the outcome of the `fetch`:
* fetch rejection → `catch` stores `err.message || generic`;
* ok response with parsable body → stores `data.cloned_html`;
* ok response whose `json()` throws → `catch` stores the thrown message;
* non-ok response with parsable body → throws
  `Error(errorData.detail || 'Failed to clone website')`, caught and stored;
* non-ok response whose `json()` throws → `catch` stores the thrown message.
The `finally` block clears `loading` in every case. -/
def runSubmit (st : AppState) (out : FetchOutcome) : AppState :=
  let p := submitPending st
  match out with
  | .netError m =>
      { p with loading := false, error := some (jsStrOr m genericCloneError) }
  | .resp true (.ok b) =>
      { p with loading := false, clonedHtml := b.cloned_html }
  | .resp true (.error m) =>
      { p with loading := false, error := some (jsStrOr m genericCloneError) }
  | .resp false (.ok b) =>
      { p with loading := false,
               error := some (jsStrOr (jsOrElse b.detail failedCloneError) genericCloneError) }
  | .resp false (.error m) =>
      { p with loading := false, error := some (jsStrOr m genericCloneError) }

/-! ## Rendered output (`page.tsx:569-648`)

The disabled conditions of the URL input and submit button, the error
block, and the sandboxed preview iframe. -/

/-- `disabled={loading || backendStatus !== 'healthy'}` on the URL input
(`page.tsx:596`). -/
def inputDisabled (st : AppState) : Bool :=
  st.loading || st.backendStatus ≠ "healthy"

/-- `disabled={loading || backendStatus !== 'healthy'}` on the submit button
(`page.tsx:602`). -/
def buttonDisabled (st : AppState) : Bool :=
  st.loading || st.backendStatus ≠ "healthy"

/-- `{error && (...)}`: the error block is rendered iff `error` is truthy
(`page.tsx:620-625`). -/
def errorShown (st : AppState) : Bool :=
  jsTruthy st.error

/-- The sandboxed-iframe capabilities controlled by the HTML `sandbox`
attribute that are relevant here.  Per the HTML standard, a `sandbox`
attribute restricts every capability except those whose `allow-*` token it
lists. -/
inductive Capability where
  | scripts
  | sameOrigin
  | popups
  | forms
  | modals
  | topNavigation
  | downloads
  | pointerLock
deriving Repr, DecidableEq

/-- The `allow-*` token that lifts the restriction on a capability. -/
def allowToken : Capability → String
  | .scripts => "allow-scripts"
  | .sameOrigin => "allow-same-origin"
  | .popups => "allow-popups"
  | .forms => "allow-forms"
  | .modals => "allow-modals"
  | .topNavigation => "allow-top-navigation"
  | .downloads => "allow-downloads"
  | .pointerLock => "allow-pointer-lock"

/-- A capability is permitted by a sandbox token list iff its `allow-*`
token is present; otherwise the sandbox restricts it. -/
def permits (tokens : List String) (c : Capability) : Bool :=
  tokens.contains (allowToken c)

/-- An iframe as rendered in the preview section. -/
structure IframeSpec where
  srcDoc : String
  sandboxPresent : Bool
  sandboxTokens : List String
deriving Repr, DecidableEq

/-- The token list of the preview iframe's sandbox attribute
(`page.tsx:636`): `sandbox="allow-scripts allow-same-origin allow-popups
allow-forms allow-modals"`. -/
def previewSandboxTokens : List String :=
  ["allow-scripts", "allow-same-origin", "allow-popups", "allow-forms", "allow-modals"]

/-- `{clonedHtml && (... <iframe srcDoc={clonedHtml} sandbox=... /> ...)}`
(`page.tsx:629-648`): the preview iframe rendered for a given `clonedHtml`
state, or `none` when `clonedHtml` is falsy. -/
def clonedPreview (clonedHtml : Option String) : Option IframeSpec :=
  match clonedHtml with
  | none => none
  | some h =>
      if h = "" then none
      else some { srcDoc := h, sandboxPresent := true, sandboxTokens := previewSandboxTokens }

/-! ## Component lifecycle (`page.tsx:12-28`, `page.tsx:30-60`, `page.tsx:595`)

Event semantics of the mounted component.  The health check lives in a
`useEffect` with an empty dependency array (`page.tsx:13-28`), which React
runs exactly once, when the component mounts; no other code path issues the
health fetch or calls `setBackendStatus`.  The other state transitions are
the `onChange` of the URL input (`page.tsx:595`) and a completed
`handleSubmit`. -/

/-- Network actions the component can issue. -/
inductive Action where
  | fetchHealth
  | fetchClone (req : HttpRequest)
deriving Repr

/-- Events in the life of the mounted component: the mount itself (runs the
empty-deps effect), arrival of the health-fetch outcome, typing in the URL
input, and a form submission running to completion with a given fetch
outcome. -/
inductive AppEvent where
  | mount
  | healthResult (out : HealthOutcome)
  | urlInput (s : String)
  | submit (out : FetchOutcome)

/-- One step of the component: the state update and the network actions the
event causes.  `mount` issues the single health fetch of the empty-deps
effect; `healthResult` is the only event that writes `backendStatus`
(`setBackendStatus` occurs only inside `checkBackendHealth`);
`submit` issues the clone request and applies `runSubmit`.  A stored
`none` status (ok health response without a `status` field) is kept as the
empty rendering of JS `undefined`. -/
def step (st : AppState) : AppEvent → AppState × List Action
  | .mount => (st, [.fetchHealth])
  | .healthResult out =>
      ({ st with backendStatus := (checkBackendHealth out).getD "" }, [])
  | .urlInput s => ({ st with url := s }, [])
  | .submit out => (runSubmit st out, [.fetchClone (submitRequest st)])

/-- Run a sequence of events from a state, collecting all issued actions. -/
def run (st : AppState) : List AppEvent → AppState × List Action
  | [] => (st, [])
  | e :: es =>
      let (st', as) := step st e
      let (st'', as') := run st' es
      (st'', as ++ as')

/-- Count the health fetches among a list of actions. -/
def healthFetchCount (as : List Action) : Nat :=
  (as.filter (fun a => match a with | .fetchHealth => true | _ => false)).length

/-- An event is a mount event. -/
def isMount : AppEvent → Bool
  | .mount => true
  | _ => false

/-- An event is an arrival of the health-fetch result. -/
def isHealthResult : AppEvent → Bool
  | .healthResult _ => true
  | _ => false

/-! ## Backend model

The backend's code is not present under `src/`; the definitions below are
modelled from the spec (§3, §4, §7) and say so in their doc comments. -/

/-- Modelled from the spec (§7): the error taxonomy of the cloning
pipeline. -/
inductive ErrorKind where
  | invalidUrl
  | renderTimeout
  | renderUnavailable
  | providerUnavailable
  | providerRejected
  | malformedOutput
  | internalError
deriving Repr, DecidableEq

/-- Modelled from the spec (§3): a normalized URL; invariant
`scheme ∈ {http, https}`, `host` non-empty. -/
structure NormalizedUrl where
  scheme : String
  host : String
  path : String
  query : String
deriving Repr, DecidableEq

/-- Decidable equality for stage results, used to evaluate the model on
concrete inputs. -/
instance {ε α : Type} [DecidableEq ε] [DecidableEq α] : DecidableEq (Except ε α) :=
  fun a b =>
    match a, b with
    | .ok x, .ok y =>
        if h : x = y then .isTrue (by rw [h])
        else .isFalse (by intro hh; cases hh; exact h rfl)
    | .ok _, .error _ => .isFalse (by intro hh; cases hh)
    | .error _, .ok _ => .isFalse (by intro hh; cases hh)
    | .error x, .error y =>
        if h : x = y then .isTrue (by rw [h])
        else .isFalse (by intro hh; cases hh; exact h rfl)

/-- Split a character list at the first occurrence of `"://"`: the part
before the separator and the part after, or `none` when absent. -/
def splitSchemeSep : List Char → Option (List Char × List Char)
  | [] => none
  | ':' :: '/' :: '/' :: rest => some ([], rest)
  | c :: rest =>
      match splitSchemeSep rest with
      | none => none
      | some (pre, post) => some (c :: pre, post)

/-- Scheme of a raw URL string: the text before the first `"://"`, when the
separator is present. -/
def schemeOf (raw : String) : Option String :=
  (splitSchemeSep raw.toList).map fun pr => String.mk pr.1

/-- The part of a raw URL after the first `"://"` (empty when absent). -/
def afterScheme (raw : String) : List Char :=
  match splitSchemeSep raw.toList with
  | none => []
  | some (_, post) => post

/-- One character list is a prefix of another. -/
def listIsPrefix : List Char → List Char → Bool
  | [], _ => true
  | _ :: _, [] => false
  | c :: cs, d :: ds => c = d && listIsPrefix cs ds

/-- Modelled from the spec (§4.1): loopback / link-local hosts are rejected
as an SSRF guard. -/
def disallowedHost (host : String) : Bool :=
  host = "localhost" || host = "::1" ||
  listIsPrefix "127.".toList host.toList ||
  listIsPrefix "169.254.".toList host.toList ||
  listIsPrefix "0.".toList host.toList

/-- Modelled from the spec (§4.1, §3): the URL Validator, absent from
`src/`.  Input a raw string; output a `NormalizedUrl` or a failure with
`InvalidUrl` when the string does not parse as an absolute URL with an
`http`/`https` scheme, has an empty host, or resolves to a disallowed
(loopback/link-local) host.  No side effects. -/
def validateUrl (raw : String) : Except (ErrorKind × String) NormalizedUrl :=
  match schemeOf raw with
  | none => .error (.invalidUrl, "not an absolute URL")
  | some scheme =>
      if scheme = "http" ∨ scheme = "https" then
        let rest := afterScheme raw
        let authority := rest.takeWhile (· ≠ '/')
        let host := String.mk (authority.takeWhile (· ≠ ':'))
        if host = "" then .error (.invalidUrl, "empty host")
        else if disallowedHost host then .error (.invalidUrl, "disallowed host")
        else
          let tail := rest.dropWhile (· ≠ '/')
          let path := String.mk (tail.takeWhile (· ≠ '?'))
          let query := String.mk ((tail.dropWhile (· ≠ '?')).drop 1)
          .ok { scheme := scheme, host := host, path := path, query := query }
      else .error (.invalidUrl, "scheme not allowed")

/-! ## Content Extractor (spec §3, §4.3)

Modelled from the spec: the Content Extractor is absent from `src/`.  The
rendered snapshot is taken at the level of its parsed DOM tree; the
extractor classifies nodes into block kinds, drops `script`/`style`/`meta`
and visually hidden nodes, keeps only allow-listed style attributes, and
enforces the PageModel depth and serialized-size ceilings by deterministic
truncation (depth cut-off during the walk, then retention of the earliest
siblings that fit the byte budget). -/

/-- Modelled from the spec (§4.3): a node of the DOM-like rendered
snapshot: tag name, direct text content, style attributes, children. -/
inductive DomNode where
  | node (tag : String) (text : String) (styles : List (String × String)) (children : List DomNode)
deriving Repr

/-- Modelled from the spec (§3): `RenderedPage`, produced by the Render
Client.  The snapshot is carried as its parsed DOM tree. -/
structure RenderedPage where
  finalUrl : String
  htmlSnapshot : DomNode
  statusCode : Nat
  renderDurationMs : Nat
deriving Repr

/-- Modelled from the spec (§3): the kinds of PageModel blocks. -/
inductive BlockKind where
  | heading
  | paragraph
  | image
  | link
  | container
deriving Repr, DecidableEq

/-- Modelled from the spec (§3): a PageModel block: kind, optional text,
style-hint attributes, ordered children. -/
inductive Block where
  | node (kind : BlockKind) (text : String) (attrs : List (String × String)) (children : List Block)
deriving Repr

/-- Modelled from the spec (§3): a PageModel is an ordered sequence of
blocks. -/
def PageModel : Type := List Block

/-- Modelled from the spec (§4.3): semantic tags take precedence over
generic containers. -/
def classifyTag (t : String) : BlockKind :=
  if t = "h1" ∨ t = "h2" ∨ t = "h3" ∨ t = "h4" ∨ t = "h5" ∨ t = "h6" then .heading
  else if t = "p" then .paragraph
  else if t = "img" then .image
  else if t = "a" then .link
  else .container

/-- Modelled from the spec (§4.3): `script`/`style`/`meta` nodes are
dropped entirely. -/
def droppedTag (t : String) : Bool :=
  t = "script" || t = "style" || t = "meta"

/-- Modelled from the spec (§4.3): visually hidden elements (`display:none`
equivalent, zero size) are dropped. -/
def isHidden (styles : List (String × String)) : Bool :=
  styles.contains ("display", "none") ||
  (styles.contains ("width", "0") && styles.contains ("height", "0"))

/-- Modelled from the spec (§4.3): the fixed style allow-list. -/
def allowedStyleKeys : List String :=
  ["color", "background", "font-size", "font-weight", "layout-role"]

/-- Keep only allow-listed style attributes. -/
def keepStyles (styles : List (String × String)) : List (String × String) :=
  styles.filter fun kv => allowedStyleKeys.contains kv.1

/-- Modelled from the spec (§3): the configurable depth ceiling (example
default 6). -/
def depthCeiling : Nat := 6

/-- Modelled from the spec (§3): the configurable serialized-size byte
ceiling (example default 50 KB). -/
def sizeCeiling : Nat := 50000

mutual
/-- Modelled from the spec (§4.3): convert one DOM node to a block, with a
depth budget.  Dropped (`script`/`style`/`meta`), hidden, or deeper-than-
budget nodes yield `none`. -/
def convertNode : Nat → DomNode → Option Block
  | 0, _ => none
  | fuel + 1, .node t txt styles cs =>
      if droppedTag t || isHidden styles then none
      else some (.node (classifyTag t) txt (keepStyles styles) (convertList fuel cs))

/-- Convert a sibling list of DOM nodes, keeping order and skipping dropped
nodes. -/
def convertList : Nat → List DomNode → List Block
  | _, [] => []
  | fuel, d :: ds =>
      match convertNode fuel d with
      | none => convertList fuel ds
      | some b => b :: convertList fuel ds
end

mutual
/-- Depth of a block: 1 plus the depth of its deepest child. -/
def depthB : Block → Nat
  | .node _ _ _ cs => 1 + depthL cs

/-- Depth of a block list: the maximum depth of its members. -/
def depthL : List Block → Nat
  | [] => 0
  | b :: bs => max (depthB b) (depthL bs)
end

/-- Serialize one style attribute. -/
def serializeAttr (kv : String × String) : String :=
  kv.1 ++ "=" ++ kv.2 ++ ";"

/-- Serialize a style-attribute list. -/
def serializeAttrs : List (String × String) → String
  | [] => ""
  | kv :: kvs => serializeAttr kv ++ serializeAttrs kvs

/-- Name of a block kind in the serialization. -/
def kindName : BlockKind → String
  | .heading => "heading"
  | .paragraph => "paragraph"
  | .image => "image"
  | .link => "link"
  | .container => "container"

mutual
/-- Modelled from the spec (§3): the canonical byte serialization of a
block, over which the size ceiling is measured. -/
def serializeBlock : Block → String
  | .node k txt attrs cs =>
      "(" ++ kindName k ++ "|" ++ txt ++ "|" ++ serializeAttrs attrs ++ "|" ++
        serializeBlocks cs ++ ")"

/-- Serialization of a block list: the concatenation of its members'
serializations. -/
def serializeBlocks : List Block → String
  | [] => ""
  | b :: bs => serializeBlock b ++ serializeBlocks bs
end

/-- Serialized size of one block. -/
def blockSize (b : Block) : Nat := (serializeBlock b).length

/-- Modelled from the spec (§3): deterministic size truncation — keep the
earliest siblings while they fit in the remaining byte budget; the first
sibling that does not fit is discarded together with all later ones. -/
def truncSize : Nat → List Block → List Block
  | _, [] => []
  | budget, b :: bs =>
      if blockSize b ≤ budget then b :: truncSize (budget - blockSize b) bs
      else []

/-- Modelled from the spec (§4.3): `extract(RenderedPage) → PageModel` —
convert the snapshot under the depth ceiling, then truncate to the
serialized-size ceiling.  Pure and total: degenerate pages yield an empty
or minimal PageModel rather than an error. -/
def extract (r : RenderedPage) : PageModel :=
  truncSize sizeCeiling (convertList depthCeiling [r.htmlSnapshot])

/-! ## Prompt Builder, Provider, Clone Orchestrator (spec §3, §4.4-§4.6)

Modelled from the spec: these components are absent from `src/`.  The two
external calls (render, generate) are the pipeline's only effects; the
orchestrator is run against an environment fixing their outcomes, where an
outcome may also be an unexpected internal raise, which the orchestrator
must catch at its boundary. -/

/-- Modelled from the spec (§3): `ProviderRequest`. -/
structure ProviderRequest where
  systemInstructions : String
  pageModelSerialized : String
  maxOutputTokens : Nat
deriving Repr, DecidableEq

/-- Modelled from the spec (§4.4): the conservative size budget of the
Prompt Builder (tunable). -/
def promptBudget : Nat := 8000

/-- Modelled from the spec (§4.4): `build(PageModel) → ProviderRequest`,
deterministic, reducing the serialized PageModel under the budget when
needed. -/
def buildPrompt (pm : PageModel) : ProviderRequest :=
  { systemInstructions := "Recreate the page as a self-contained static HTML document."
  , pageModelSerialized := serializeBlocks (truncSize promptBudget pm)
  , maxOutputTokens := promptBudget }

/-- Modelled from the spec (§3): `ClonedHtml`. -/
structure ClonedHtml where
  html : String
deriving Repr, DecidableEq

/-- Modelled from the spec (§3): `CloneResult`, the discriminated union the
Orchestrator always returns. -/
inductive CloneResult where
  | success (c : ClonedHtml)
  | failure (kind : ErrorKind) (message : String)
deriving Repr, DecidableEq

/-- Outcome of one external stage as fixed by the environment: a value, an
expected failure carrying its `ErrorKind`, or an unexpected internal raise
(the fault the Orchestrator must catch at its boundary). -/
inductive StageOutcome (α : Type) where
  | ok (a : α)
  | fail (kind : ErrorKind) (msg : String)
  | exn (msg : String)
deriving Repr

/-- The environment of one clone request: the outcomes of the render call
and of the provider call (spec §5: the only suspension points). -/
structure Env where
  renderOut : StageOutcome RenderedPage
  providerOut : StageOutcome String
deriving Repr

/-- A network call issued by the pipeline. -/
inductive NetCall where
  | render (u : NormalizedUrl)
  | generate (p : ProviderRequest)
deriving Repr, DecidableEq

/-- Whitespace characters stripped by trimming. -/
def isWsChar (c : Char) : Bool :=
  c = ' ' || c = '\t' || c = '\n' || c = '\r'

/-- Trim leading and trailing whitespace from a character list. -/
def trimChars (cs : List Char) : List Char :=
  ((cs.dropWhile isWsChar).reverse.dropWhile isWsChar).reverse

/-- Modelled from the spec (§4.6): the raw LLM text must parse as a markup
fragment; otherwise the result is `MalformedOutput`.  The model's check:
the trimmed text starts with `<` and ends with `>`. -/
def looksLikeMarkup (s : String) : Bool :=
  match trimChars s.toList with
  | [] => false
  | c :: cs => c = '<' && (cs.getLastD '<') = '>'

/-- Modelled from the spec (§4.6): sanitizing guarantees a well-formed
payload without stripping content wholesale; the exact neutralization rules
are left open by the spec (§9), so the model keeps the markup as trimmed
text. -/
def sanitizeHtml (s : String) : String := String.mk (trimChars s.toList)

/-- Modelled from the spec (§4.6, §7): the Clone Orchestrator, absent from
`src/`.  Sequences validate → render → extract → prompt → generate →
sanitize, short-circuiting to a terminal `CloneResult.failure` and
converting any unexpected internal raise into `InternalError`; also
returns the list of network calls made, in order. -/
def orchestrate (env : Env) (raw : String) : CloneResult × List NetCall :=
  match validateUrl raw with
  | .error (k, m) => (.failure k m, [])
  | .ok u =>
      match env.renderOut with
      | .fail k m => (.failure k m, [.render u])
      | .exn m => (.failure .internalError m, [.render u])
      | .ok page =>
          let req := buildPrompt (extract page)
          match env.providerOut with
          | .fail k m => (.failure k m, [.render u, .generate req])
          | .exn m => (.failure .internalError m, [.render u, .generate req])
          | .ok text =>
              if looksLikeMarkup text then
                (.success ⟨sanitizeHtml text⟩, [.render u, .generate req])
              else
                (.failure .malformedOutput "provider output is not parseable markup",
                  [.render u, .generate req])

/-! ## Helper lemmas -/

mutual
/-- A converted node respects the depth budget. -/
theorem depthB_convertNode_le (fuel : Nat) (d : DomNode) :
    ∀ b, convertNode fuel d = some b → depthB b ≤ fuel := by
  match fuel, d with
  | 0, _ =>
      intro b h
      simp [convertNode] at h
  | fuel + 1, .node t txt styles cs =>
      intro b h
      simp only [convertNode] at h
      split at h
      · exact absurd h (by simp)
      · simp only [Option.some.injEq] at h
        subst h
        simp only [depthB]
        have := depthL_convertList_le fuel cs
        omega

/-- A converted sibling list respects the depth budget. -/
theorem depthL_convertList_le (fuel : Nat) (ds : List DomNode) :
    depthL (convertList fuel ds) ≤ fuel := by
  match ds with
  | [] => simp [convertList, depthL]
  | d :: ds =>
      simp only [convertList]
      cases h : convertNode fuel d with
      | none => exact depthL_convertList_le fuel ds
      | some b =>
          simp only [depthL]
          have h1 := depthB_convertNode_le fuel d b h
          have h2 := depthL_convertList_le fuel ds
          omega
end

/-- Size truncation keeps a prefix, so it cannot increase the depth. -/
theorem depthL_truncSize_le (budget : Nat) (bs : List Block) :
    depthL (truncSize budget bs) ≤ depthL bs := by
  induction bs generalizing budget with
  | nil => simp [truncSize]
  | cons b bs ih =>
      simp only [truncSize]
      split
      · simp only [depthL]
        have := ih (budget - blockSize b)
        omega
      · simp [depthL]

/-- Serialized length of a cons block list. -/
theorem length_serializeBlocks_cons (b : Block) (bs : List Block) :
    (serializeBlocks (b :: bs)).length = blockSize b + (serializeBlocks bs).length := by
  simp [serializeBlocks, blockSize, String.length_append]

/-- Size truncation meets its byte budget. -/
theorem length_serializeBlocks_truncSize (budget : Nat) (bs : List Block) :
    (serializeBlocks (truncSize budget bs)).length ≤ budget := by
  induction bs generalizing budget with
  | nil => simp [truncSize, serializeBlocks, String.length]
  | cons b bs ih =>
      simp only [truncSize]
      split
      · rw [length_serializeBlocks_cons]
        have := ih (budget - blockSize b)
        omega
      · simp [serializeBlocks, String.length]

/-- `validateUrl` rejects with `InvalidUrl` whenever the scheme is not
`http`/`https`. -/
theorem validateUrl_scheme_not_allowed (raw : String)
    (h1 : schemeOf raw ≠ some "http") (h2 : schemeOf raw ≠ some "https") :
    ∃ m, validateUrl raw = .error (.invalidUrl, m) := by
  unfold validateUrl
  cases hs : schemeOf raw with
  | none => exact ⟨"not an absolute URL", rfl⟩
  | some s =>
      have hh1 : s ≠ "http" := by rintro rfl; exact h1 hs
      have hh2 : s ≠ "https" := by rintro rfl; exact h2 hs
      refine ⟨"scheme not allowed", ?_⟩
      simp [hh1, hh2]

/-- Traces of events without a mount event issue no health fetch. -/
theorem healthFetchCount_run_no_mount (st : AppState) (es : List AppEvent)
    (h : ∀ x ∈ es, isMount x = false) :
    healthFetchCount (run st es).2 = 0 := by
  induction es generalizing st with
  | nil => simp [run, healthFetchCount]
  | cons e es ih =>
      have he : isMount e = false := h e (by simp)
      have hes : ∀ x ∈ es, isMount x = false := fun x hx => h x (by simp [hx])
      cases e with
      | mount => simp [isMount] at he
      | healthResult out =>
          simp only [run, step]
          simpa [healthFetchCount] using ih _ hes
      | urlInput s =>
          simp only [run, step]
          simpa [healthFetchCount] using ih _ hes
      | submit out =>
          simp only [run, step]
          have := ih (runSubmit st out) hes
          simp only [healthFetchCount, List.filter_append, List.length_append] at *
          simpa [healthFetchCount] using this

/-! ## Claims -/

/-- C1, counterexample: the claim — the preview iframe's sandbox attribute
restricts script (and same-origin/popup/form/modal) permissions for the
embedded document — is false: for the successful clone `"<p>hello</p>"` the
rendered iframe's sandbox token list contains `allow-scripts`, so scripts
are permitted, not restricted (`page.tsx:636` lists the `allow-*` token of
each of the five named capabilities). -/
theorem preview_sandbox_restricts_scripts_false :
    ¬ (∀ (h : String) (fr : IframeSpec), clonedPreview (some h) = some fr →
        permits fr.sandboxTokens Capability.scripts = false) := by
  intro hclaim
  exact absurd
    (hclaim "<p>hello</p>" ⟨"<p>hello</p>", true, previewSandboxTokens⟩ (by decide))
    (by decide)

/-- C1 (amended): for every successful clone (truthy `clonedHtml`), the
returned HTML is rendered inside an iframe whose sandbox attribute is
present and whose token list permits exactly the script, same-origin,
popup, form and modal capabilities — every other sandbox-controlled
capability (top navigation, downloads, pointer lock) stays restricted. -/
theorem preview_iframe_sandboxed (h : String) (hne : h ≠ "") :
    clonedPreview (some h) = some ⟨h, true, previewSandboxTokens⟩ ∧
    (∀ c : Capability, permits previewSandboxTokens c = true ↔
        c ∈ [Capability.scripts, Capability.sameOrigin, Capability.popups,
             Capability.forms, Capability.modals]) := by
  constructor
  · simp [clonedPreview, hne]
  · intro c
    cases c <;> decide

/-- C1, witness for the amended theorem at `clonedHtml = "<p>hello</p>"`. -/
theorem preview_iframe_sandboxed_witness :
    clonedPreview (some "<p>hello</p>") =
        some ⟨"<p>hello</p>", true, previewSandboxTokens⟩ ∧
    (∀ c : Capability, permits previewSandboxTokens c = true ↔
        c ∈ [Capability.scripts, Capability.sameOrigin, Capability.popups,
             Capability.forms, Capability.modals]) :=
  preview_iframe_sandboxed "<p>hello</p>" (by decide)

/-- C2, counterexample: the claim — every non-2xx response's `detail`
string is surfaced as the user-visible error message — fails when `detail`
is the empty string: `errorData.detail || 'Failed to clone website'`
(`page.tsx:48`) falls back even though `detail` is present, so the shown
message is `"Failed to clone website"`, not `""`. -/
theorem error_detail_surfaced_false :
    ¬ (∀ (st : AppState) (b : CloneResponseBody) (d : String), b.detail = some d →
        (runSubmit st (.resp false (.ok b))).error = some d) := by
  intro hclaim
  exact absurd (hclaim initialState ⟨some "", none⟩ "" rfl) (by decide)

/-- C2 (amended): for every non-2xx response whose body parses, the client
surfaces the body's `detail` string as the error message whenever `detail`
is a non-empty string, falls back to the fixed message
`"Failed to clone website"` when `detail` is absent or empty, and in all
cases stores no cloned HTML, so no cloned preview is displayed for that
request. -/
theorem error_detail_surfaced (st : AppState) (b : CloneResponseBody) :
    (∀ d, b.detail = some d → d ≠ "" →
        (runSubmit st (.resp false (.ok b))).error = some d) ∧
    (b.detail = none ∨ b.detail = some "" →
        (runSubmit st (.resp false (.ok b))).error = some failedCloneError) ∧
    (runSubmit st (.resp false (.ok b))).clonedHtml = none ∧
    clonedPreview (runSubmit st (.resp false (.ok b))).clonedHtml = none := by
  refine ⟨?_, ?_, ?_, ?_⟩
  · intro d hd hne
    simp [runSubmit, submitPending, jsOrElse, jsStrOr, hd, hne]
  · rintro (hd | hd) <;>
      simp [runSubmit, submitPending, jsOrElse, jsStrOr, hd, failedCloneError]
  · simp [runSubmit, submitPending]
  · simp [runSubmit, submitPending, clonedPreview]

/-- C2, witness: a non-2xx response with `detail = "boom"` surfaces
`"boom"` and displays no preview. -/
theorem error_detail_surfaced_witness :
    (runSubmit initialState (.resp false (.ok ⟨some "boom", none⟩))).error = some "boom" ∧
    clonedPreview (runSubmit initialState (.resp false (.ok ⟨some "boom", none⟩))).clonedHtml
      = none := by
  have h := error_detail_surfaced initialState ⟨some "boom", none⟩
  exact ⟨h.1 "boom" rfl (by decide), h.2.2.2⟩

/-- C3: every clone request is `POST http://localhost:8000/clone` with JSON
body exactly `{ "url": <the entered string> }` (`page.tsx:38-44`), on a 2xx
response the stored clone is exactly the body's `cloned_html` field
(`page.tsx:51-52`), and whenever that field is a displayable (truthy)
string the preview iframe's `srcDoc` is exactly that string
(`page.tsx:629-638`). -/
theorem clone_request_shape_and_display (st : AppState) (b : CloneResponseBody) :
    submitRequest st =
      ⟨"POST", "http://localhost:8000/clone", "application/json",
        .obj [("url", .str st.url)]⟩ ∧
    (runSubmit st (.resp true (.ok b))).clonedHtml = b.cloned_html ∧
    (∀ h, b.cloned_html = some h → h ≠ "" →
        clonedPreview (runSubmit st (.resp true (.ok b))).clonedHtml =
          some ⟨h, true, previewSandboxTokens⟩) := by
  refine ⟨rfl, by simp [runSubmit, submitPending], ?_⟩
  intro h hh hne
  simp [runSubmit, submitPending, clonedPreview, hh, hne]

/-- C3, witness: a concrete submission with entered URL
`"https://x.com"` and response body `cloned_html = "<div>ok</div>"`. -/
theorem clone_request_shape_and_display_witness :
    submitRequest { initialState with url := "https://x.com" } =
      ⟨"POST", "http://localhost:8000/clone", "application/json",
        .obj [("url", .str "https://x.com")]⟩ ∧
    clonedPreview (runSubmit { initialState with url := "https://x.com" }
        (.resp true (.ok ⟨none, some "<div>ok</div>"⟩))).clonedHtml =
      some ⟨"<div>ok</div>", true, previewSandboxTokens⟩ := by
  have h := clone_request_shape_and_display
    { initialState with url := "https://x.com" } ⟨none, some "<div>ok</div>"⟩
  exact ⟨h.1, h.2.2 "<div>ok</div>" rfl (by decide)⟩

/-- C4, counterexample: the claim — every status the client can display
after the health check completes is one of `"healthy"`, `"unhealthy"`,
`"degraded"` — is false: when the health fetch itself throws, the `catch`
branch (`page.tsx:23-25`) stores `"unreachable"`, which is outside that
set. -/
theorem displayed_status_in_spec_set_false :
    ¬ (∀ (st : AppState) (out : HealthOutcome),
        (step st (.healthResult out)).1.backendStatus ∈
          ["healthy", "unhealthy", "degraded"]) := by
  intro hclaim
  exact absurd (hclaim initialState .fetchError) (by decide)

/-- C4 (amended): assuming every ok health response carries one of the
spec's `status` values, the status the client displays after the health
check completes is one of `"healthy"`, `"unhealthy"`, `"degraded"`,
`"unreachable"` — and it is `"unreachable"` exactly when the fetch itself
threw. -/
theorem displayed_status_set (st : AppState) (out : HealthOutcome)
    (hok : ∀ s, out = .response true s →
        s = some "healthy" ∨ s = some "unhealthy" ∨ s = some "degraded") :
    (step st (.healthResult out)).1.backendStatus ∈
      ["healthy", "unhealthy", "degraded", "unreachable"] ∧
    ((step st (.healthResult out)).1.backendStatus = "unreachable" ↔
        out = .fetchError) := by
  cases out with
  | fetchError =>
      exact ⟨by simp [step, checkBackendHealth], by simp [step, checkBackendHealth]⟩
  | response ok s =>
      cases ok with
      | true =>
          rcases hok s rfl with h | h | h <;> subst h <;>
            exact ⟨by simp [step, checkBackendHealth], by simp [step, checkBackendHealth]⟩
      | false =>
          exact ⟨by simp [step, checkBackendHealth], by simp [step, checkBackendHealth]⟩

/-- C4, witness: a failed health fetch displays `"unreachable"`. -/
theorem displayed_status_set_witness :
    (step initialState (.healthResult .fetchError)).1.backendStatus ∈
      ["healthy", "unhealthy", "degraded", "unreachable"] ∧
    (step initialState (.healthResult .fetchError)).1.backendStatus = "unreachable" := by
  have h := displayed_status_set initialState .fetchError (by intro s hs; cases hs)
  exact ⟨h.1, h.2.mpr rfl⟩

/-- C5: for every clone request the Orchestrator returns a `CloneResult` —
either `success` with the cloned HTML or `failure` with an `ErrorKind` from
the taxonomy and a message — and any unexpected internal raise of the
render or provider stage is caught at the boundary and reported as
`InternalError`.  (The Orchestrator is modelled from the spec; its code is
absent from `src/`.  Totality of `orchestrate` is the model of "never
raises past its own boundary".) -/
theorem orchestrator_always_returns_clone_result (env : Env) (raw : String)
    (u : NormalizedUrl) (p : RenderedPage) (m : String) :
    ((∃ c, (orchestrate env raw).1 = .success c) ∨
      ∃ k msg, (orchestrate env raw).1 = .failure k msg) ∧
    (validateUrl raw = .ok u → env.renderOut = .exn m →
        (orchestrate env raw).1 = .failure .internalError m) ∧
    (validateUrl raw = .ok u → env.renderOut = .ok p → env.providerOut = .exn m →
        (orchestrate env raw).1 = .failure .internalError m) := by
  refine ⟨?_, ?_, ?_⟩
  · cases hr : (orchestrate env raw).1 with
    | success c => exact .inl ⟨c, rfl⟩
    | failure k msg => exact .inr ⟨k, msg, rfl⟩
  · intro hv hr
    simp [orchestrate, hv, hr]
  · intro hv hr hp
    simp [orchestrate, hv, hr, hp]

/-- C5, witness: a render stage that raises `"boom"` on
`"https://example.com"` is reported as `InternalError`. -/
theorem orchestrator_always_returns_clone_result_witness :
    (orchestrate ⟨.exn "boom", .ok "<div></div>"⟩ "https://example.com").1 =
      .failure .internalError "boom" :=
  (orchestrator_always_returns_clone_result
      ⟨.exn "boom", .ok "<div></div>"⟩ "https://example.com"
      ⟨"https", "example.com", "", ""⟩
      ⟨"", .node "html" "" [] [], 200, 0⟩ "boom").2.1 (by decide) rfl

/-- C6: for every input string whose scheme is not `http`/`https`, the
pipeline fails with `InvalidUrl` and makes no network call — the trace of
the run is empty, so the Render Client is never invoked.  (Validator and
Orchestrator are modelled from the spec; their code is absent from
`src/`.) -/
theorem invalid_scheme_fails_without_network (env : Env) (raw : String)
    (h1 : schemeOf raw ≠ some "http") (h2 : schemeOf raw ≠ some "https") :
    (∃ m, (orchestrate env raw).1 = .failure .invalidUrl m) ∧
    (orchestrate env raw).2 = [] := by
  obtain ⟨m, hm⟩ := validateUrl_scheme_not_allowed raw h1 h2
  exact ⟨⟨m, by simp [orchestrate, hm]⟩, by simp [orchestrate, hm]⟩

/-- C6, witness: `"ftp://example.com"` fails with `InvalidUrl` and issues
no network call, whatever the stage environment would have answered. -/
theorem invalid_scheme_fails_without_network_witness :
    (∃ m, (orchestrate ⟨.ok ⟨"", .node "html" "" [] [], 200, 0⟩, .ok "<p></p>"⟩
        "ftp://example.com").1 = .failure .invalidUrl m) ∧
    (orchestrate ⟨.ok ⟨"", .node "html" "" [] [], 200, 0⟩, .ok "<p></p>"⟩
        "ftp://example.com").2 = [] :=
  invalid_scheme_fails_without_network
    ⟨.ok ⟨"", .node "html" "" [] [], 200, 0⟩, .ok "<p></p>"⟩
    "ftp://example.com" (by decide) (by decide)

/-- C7: extraction is a pure, deterministic function — re-extracting the
same `RenderedPage` yields a byte-identical serialized PageModel — and for
every rendered snapshot, oversized ones included, the resulting PageModel
satisfies the depth ceiling and the serialized-size byte ceiling.  (The
Extractor is modelled from the spec; its code is absent from `src/`.) -/
theorem extract_deterministic_and_bounded (r : RenderedPage) :
    serializeBlocks (extract r) = serializeBlocks (extract r) ∧
    depthL (extract r) ≤ depthCeiling ∧
    (serializeBlocks (extract r)).length ≤ sizeCeiling := by
  refine ⟨rfl, ?_, ?_⟩
  · calc depthL (extract r)
        ≤ depthL (convertList depthCeiling [r.htmlSnapshot]) :=
          depthL_truncSize_le _ _
      _ ≤ depthCeiling := depthL_convertList_le _ _
  · exact length_serializeBlocks_truncSize _ _

/-- C8: the URL input and the submit button are disabled exactly when a
request is in flight or the reported backend status differs from
`"healthy"` (`page.tsx:596`, `page.tsx:602`); in particular a backend
reporting `"degraded"` leaves the form unusable, and a submission is only
possible when `loading` is false and the status is exactly `"healthy"`. -/
theorem form_disabled_unless_healthy (st : AppState) :
    (st.loading = true ∨ st.backendStatus ≠ "healthy" →
        inputDisabled st = true ∧ buttonDisabled st = true) ∧
    (inputDisabled st = false ∨ buttonDisabled st = false →
        st.loading = false ∧ st.backendStatus = "healthy") ∧
    (st.backendStatus = "degraded" →
        inputDisabled st = true ∧ buttonDisabled st = true) := by
  refine ⟨?_, ?_, ?_⟩
  · rintro (h | h) <;> simp [inputDisabled, buttonDisabled, h]
  · rintro (h | h) <;>
      · simp only [inputDisabled, buttonDisabled, Bool.or_eq_false_iff,
          decide_eq_false_iff_not, not_not] at h
        exact ⟨h.1, h.2⟩
  · intro h
    simp [inputDisabled, buttonDisabled, h]

/-- C8, witness: with backend status `"degraded"` both controls are
disabled. -/
theorem form_disabled_unless_healthy_witness :
    inputDisabled { initialState with backendStatus := "degraded" } = true ∧
    buttonDisabled { initialState with backendStatus := "degraded" } = true :=
  (form_disabled_unless_healthy
      { initialState with backendStatus := "degraded" }).2.2 rfl

/-- C9: every submission first clears the previous result and error and
raises `loading` (the state in which the request is issued), is insensitive
to the previous `clonedHtml`/`error`, and on completion `loading` is false
and at most one of `clonedHtml`/`error` is set: a 2xx response with a
parsable body stores only `cloned_html` and leaves `error` null, while
every failure path (network error, non-2xx, unparsable body) stores only an
error and leaves `clonedHtml` null (`page.tsx:30-60`). -/
theorem submit_clears_and_resolves (st : AppState) (out : FetchOutcome)
    (b : CloneResponseBody) (m : String) (x y : Option String) :
    (submitPending st).error = none ∧
    (submitPending st).clonedHtml = none ∧
    (submitPending st).loading = true ∧
    runSubmit { st with clonedHtml := x, error := y } out = runSubmit st out ∧
    (runSubmit st out).loading = false ∧
    ((runSubmit st out).clonedHtml = none ∨ (runSubmit st out).error = none) ∧
    (runSubmit st (.resp true (.ok b))).error = none ∧
    (runSubmit st (.resp true (.ok b))).clonedHtml = b.cloned_html ∧
    (runSubmit st (.netError m)).clonedHtml = none ∧
    (runSubmit st (.resp false (.ok b))).clonedHtml = none ∧
    (runSubmit st (.resp true (.error m))).clonedHtml = none ∧
    (runSubmit st (.resp false (.error m))).clonedHtml = none := by
  refine ⟨rfl, rfl, rfl, ?_, ?_, ?_, ?_, ?_, ?_, ?_, ?_, ?_⟩ <;>
    cases out <;>
      first
        | (rename_i ok body; cases ok <;> cases body <;>
            simp [runSubmit, submitPending])
        | simp [runSubmit, submitPending]

/-- C10: the health check is issued exactly once per page load — the mount
effect (empty dependency array, `page.tsx:13-28`) is the only event that
issues the health fetch, so a mount followed by any mount-free event
sequence issues exactly one — and no event other than the arrival of that
health result ever changes the displayed `backendStatus` (hence the form's
enabled state never reacts to later backend changes until reload). -/
theorem health_checked_once_per_load (st : AppState) (e : AppEvent)
    (rest : List AppEvent) (hm : ∀ x ∈ rest, isMount x = false) :
    (step st .mount).2 = [.fetchHealth] ∧
    (isMount e = false → healthFetchCount (step st e).2 = 0) ∧
    (isHealthResult e = false → (step st e).1.backendStatus = st.backendStatus) ∧
    healthFetchCount (run st (.mount :: rest)).2 = 1 := by
  refine ⟨rfl, ?_, ?_, ?_⟩
  · intro he
    cases e <;> simp_all [isMount, step, healthFetchCount]
  · intro he
    cases e with
    | mount => rfl
    | healthResult out => simp [isHealthResult] at he
    | urlInput s => rfl
    | submit out =>
        cases out with
        | netError m => rfl
        | resp ok body => cases ok <;> cases body <;> rfl
  · have h0 := healthFetchCount_run_no_mount st rest hm
    simp only [run, step]
    simp only [healthFetchCount, List.filter_append, List.length_append] at *
    simp [healthFetchCount, h0]

/-- C10, witness: a page load whose later events are a health result, some
typing and a submission issues exactly one health fetch, and typing does
not change the displayed status. -/
theorem health_checked_once_per_load_witness :
    (step initialState .mount).2 = [.fetchHealth] ∧
    healthFetchCount (step initialState (.urlInput "a")).2 = 0 ∧
    (step initialState (.urlInput "a")).1.backendStatus =
      initialState.backendStatus ∧
    healthFetchCount (run initialState
      [.mount, .healthResult (.response true (some "healthy")), .urlInput "x",
       .submit (.netError "down")]).2 = 1 := by
  have h := health_checked_once_per_load initialState (.urlInput "a")
    [.healthResult (.response true (some "healthy")), .urlInput "x",
     .submit (.netError "down")]
    (by intro x hx; fin_cases hx <;> rfl)
  exact ⟨h.1, h.2.1 rfl, h.2.2.1 rfl, h.2.2.2⟩

end Orchids
